import Mathlib

/-
Verification of the Oracle 23ai RAG chatbot vector-store module
(src/Oracle-23ai-RAG-Chatbot/oracle_vectorstore.py).

The module is shallowly embedded: the database engine, driver and tracing
are external collaborators, so their observable behaviour at the call
boundary is a parameter of each embedded operation (connection failure,
statement failure, the candidate row set of a SELECT, per-row insert
failures of a batch INSERT).  Python exceptions are modelled as explicit
error values; machine floats are modelled over the rationals via an
explicit IEEE-754 significand-rounding model.
-/

namespace OracleVS

/- ---------------------------------------------------------------------
   VectorCodec: model of the source's array.array packing
   (array_type = "d" if EMBEDDINGS_BITS == 64 else "f"), i.e. IEEE-754
   binary64 / binary32 little-endian packing of each element.
   The model covers zero and the normal range of each format, which is
   the range exercised by the program's embedding values.
   --------------------------------------------------------------------- -/

/-- A natural number as a rational, by explicit construction. -/
def natQ (n : ℕ) : ℚ := mkRat (Int.ofNat n) 1

/-- Two to an integer power, as a rational. -/
def pow2Z (z : ℤ) : ℚ :=
  if 0 ≤ z then natQ (2 ^ z.toNat) else 1 / natQ (2 ^ (-z).toNat)

/-- Round a rational to the nearest integer, ties to even: the rounding
mode IEEE-754 packing uses when a value is not representable. -/
def rne (x : ℚ) : ℤ :=
  let f : ℤ := x.floor
  let frac : ℚ := x - mkRat f 1
  if frac < 1/2 then f
  else if (1:ℚ)/2 < frac then f + 1
  else if f % 2 = 0 then f else f + 1

/-- Fuelled binary search for the floor of the base-2 logarithm of a
positive rational; fuel 1200 covers every exponent of the binary32 and
binary64 normal ranges. -/
def floorLog2Fuel : ℕ → ℚ → ℤ → ℤ
  | 0, _, acc => acc
  | fuel + 1, x, acc =>
    if x < 1 then floorLog2Fuel fuel (2 * x) (acc - 1)
    else if 2 ≤ x then floorLog2Fuel fuel (x / 2) (acc + 1)
    else acc

/-- Floor of the base-2 logarithm of a positive rational. -/
def floorLog2 (x : ℚ) : ℤ := floorLog2Fuel 1200 x 0

/-- An IEEE-754 binary interchange format: significand bits (without the
hidden bit), exponent bias, and total byte width. -/
structure FpFormat where
  mantBits : ℕ
  bias : ℕ
  numBytes : ℕ
deriving DecidableEq, Repr

/-- binary32, the wire format of array type code "f". -/
def fp32 : FpFormat := ⟨23, 127, 4⟩

/-- binary64, the wire format of array type code "d". -/
def fp64 : FpFormat := ⟨52, 1023, 8⟩

/-- The packed bit pattern of a rational in the given format (zero and
normal range). -/
def fpBits (fmt : FpFormat) (x : ℚ) : ℕ :=
  if x = 0 then 0
  else
    let s : ℕ := if x < 0 then 1 else 0
    let a : ℚ := if x < 0 then -x else x
    let e0 : ℤ := floorLog2 a
    let m0 : ℤ := rne (a * pow2Z (Int.ofNat fmt.mantBits - e0))
    let e : ℤ := if m0 = 2 ^ (fmt.mantBits + 1) then e0 + 1 else e0
    let m : ℕ := if m0 = 2 ^ (fmt.mantBits + 1) then 2 ^ fmt.mantBits else m0.toNat
    s * 2 ^ (8 * fmt.numBytes - 1) + (e + fmt.bias).toNat * 2 ^ fmt.mantBits +
      (m - 2 ^ fmt.mantBits)

/-- Split a natural number into its k low bytes, least significant first
(the little-endian layout array.array uses on the deployment platform). -/
def natBytesLE : ℕ → ℕ → List ℕ
  | 0, _ => []
  | k + 1, b => b % 256 :: natBytesLE k (b / 256)

/-- Reassemble a little-endian byte list into a natural number. -/
def natFromBytesLE : List ℕ → ℕ
  | [] => 0
  | b :: bs => b % 256 + 256 * natFromBytesLE bs

/-- Encode one float element as its byte string in the given format. -/
def fpEncode (fmt : FpFormat) (x : ℚ) : List ℕ :=
  natBytesLE fmt.numBytes (fpBits fmt x)

/-- The value denoted by a packed bit pattern of the given format (zero
and normal range; a zero exponent field denotes zero in this model). -/
def fpDecodeBits (fmt : FpFormat) (b : ℕ) : ℚ :=
  let frac : ℕ := b % 2 ^ fmt.mantBits
  let expField : ℕ := b / 2 ^ fmt.mantBits % 2 ^ (8 * fmt.numBytes - 1 - fmt.mantBits)
  let s : ℕ := b / 2 ^ (8 * fmt.numBytes - 1)
  if expField = 0 then 0
  else
    (if s % 2 = 1 then (-1 : ℚ) else 1) *
      (natQ (2 ^ fmt.mantBits + frac) / natQ (2 ^ fmt.mantBits)) *
      pow2Z (Int.ofNat expField - Int.ofNat fmt.bias)

/-- Decode a contiguous byte buffer into the float sequence it packs. -/
def fpDecodeList (fmt : FpFormat) (bs : List ℕ) : List ℚ :=
  (List.range (bs.length / fmt.numBytes)).map fun i =>
    fpDecodeBits fmt (natFromBytesLE ((bs.drop (i * fmt.numBytes)).take fmt.numBytes))

/-- Source line: array_type = "d" if EMBEDDINGS_BITS == 64 else "f". -/
def array_type (EMBEDDINGS_BITS : ℕ) : Char :=
  if EMBEDDINGS_BITS = 64 then 'd' else 'f'

/-- The wire format selected by an array type code. -/
def fmtOfArrayType (c : Char) : FpFormat :=
  if c = 'd' then fp64 else fp32

/-- Source line: array.array(array_type, values) — one contiguous buffer
holding each element packed at the width the type code selects. -/
def array_array (c : Char) (values : List ℚ) : List ℕ :=
  values.flatMap (fpEncode (fmtOfArrayType c))

/- ---------------------------------------------------------------------
   oracle_query: the nearest-neighbour SELECT and its result shaping.
   --------------------------------------------------------------------- -/

/-- One row of the SELECT in oracle_query: C.ID, C.CHUNK (a CLOB whose
read may fail, modelled by none), C.PAGE_NUM, the engine-computed
VECTOR_DISTANCE(C.VEC, :1, COSINE), and B.NAME. -/
structure Row where
  id : String
  clobRead : Option String
  page_num : Int
  dist : ℚ
  book_name : String
deriving DecidableEq, Repr

/-- The TextNode built for a qualifying row: id, materialised CLOB text,
and metadata file_name, page number and Similarity Score. -/
structure TextNode where
  id_ : String
  text : String
  file_name : String
  page : Int
  similarity_score : ℚ
deriving DecidableEq, Repr

/-- The llama-index result object: parallel lists of nodes, similarities
and ids, in the order they were appended. -/
structure VectorStoreQueryResult where
  nodes : List TextNode
  similarities : List ℚ
  ids : List String
deriving DecidableEq, Repr

/-- Insert one row into a list kept ascending by distance. -/
def insertByDist (r : Row) : List Row → List Row
  | [] => [r]
  | x :: xs => if r.dist ≤ x.dist then r :: x :: xs else x :: insertByDist r xs

/-- ORDER BY 4: the candidate rows sorted ascending by cosine distance. -/
def sortByDist : List Row → List Row
  | [] => []
  | x :: xs => insertByDist x (sortByDist xs)

/-- FETCH [APPROXIMATE] FIRST top_k ROWS ONLY over the ORDER BY 4 output:
the first top_k rows of the distance-ranked candidate set (the
APPROXIMATE clause is modelled by its logical meaning). -/
def fetchFirstRows (cands : List Row) (top_k : ℕ) : List Row :=
  (sortByDist cands).take top_k

/-- Source condition: 1 - row[3] >= st.session_state similarity floor. -/
def passesFloor (similarity_floor : ℚ) (r : Row) : Bool :=
  decide (similarity_floor ≤ 1 - r.dist)

/-- A Python exception raised inside the row loop of oracle_query. -/
inductive QueryFailure where
  | decodeError
deriving DecidableEq, Repr

/-- The row loop of oracle_query: filter by the similarity floor, read
each qualifying row's CLOB (a failed read raises, aborting the loop),
and append the node, its id, and row[3] — the raw distance — to the
three result lists. -/
def processRows (similarity_floor : ℚ) :
    List Row → Except QueryFailure (List TextNode × List String × List ℚ)
  | [] => .ok ([], [], [])
  | r :: rs =>
    if passesFloor similarity_floor r then
      match r.clobRead with
      | none => .error .decodeError
      | some full_clob_data =>
        match processRows similarity_floor rs with
        | .error err => .error err
        | .ok (result_nodes, node_ids, similarities) =>
          .ok (⟨r.id, full_clob_data, r.book_name, r.page_num, 1 - r.dist⟩ :: result_nodes,
               r.id :: node_ids,
               r.dist :: similarities)
    else processRows similarity_floor rs

/-- The node a qualifying, readable row is reshaped into. -/
def rowNode (r : Row) : TextNode :=
  ⟨r.id, r.clobRead.getD "", r.book_name, r.page_num, 1 - r.dist⟩

/-- Observable behaviour of the database at the oracle_query boundary:
the connection attempt fails, the statement execution fails, or the
engine evaluates the SELECT over a candidate (joined) row set. -/
inductive DbBehavior where
  | connectionError
  | executeError
  | rowsReturned (cands : List Row)

/-- oracle_query: connect, encode the embedding, run the ranked SELECT,
filter and reshape rows.  Any connection, execution or CLOB-read error
is caught by the except clause, logged, and turned into the return
value None (modelled as none); a successful query returns the
VectorStoreQueryResult. -/
def oracle_query (db : DbBehavior) (EMBEDDINGS_BITS : ℕ) (embed_query : List ℚ)
    (top_k : ℕ) (approximate : Bool) (session_similarity : ℚ) :
    Option VectorStoreQueryResult :=
  match db with
  | .connectionError => none
  | .executeError => none
  | .rowsReturned cands =>
    let _array_query := array_array (array_type EMBEDDINGS_BITS) embed_query
    let _approx_clause := if approximate then "APPROXIMATE" else ""
    let rows := fetchFirstRows cands top_k
    match processRows session_similarity rows with
    | .error _ => none
    | .ok (result_nodes, node_ids, similarities) =>
      some ⟨result_nodes, similarities, node_ids⟩

/- ---------------------------------------------------------------------
   OracleVectorStore: staging buffer, add, delete, persist.
   --------------------------------------------------------------------- -/

/-- A llama-index node as this module consumes it: id_, text, embedding,
and the page number stored under the metadata key page#. -/
structure BaseNode where
  id_ : String
  text : String
  embedding : List ℚ
  page : Int
deriving DecidableEq, Repr

/-- Key membership test of an insertion-ordered Python dict. -/
def hasKey : List (String × BaseNode) → String → Bool
  | [], _ => false
  | p :: d, k => if p.1 = k then true else hasKey d k

/-- Lookup in an insertion-ordered Python dict. -/
def dictGet : List (String × BaseNode) → String → Option BaseNode
  | [], _ => none
  | p :: d, k => if p.1 = k then some p.2 else dictGet d k

/-- Python dict assignment d[k] = v: an existing key keeps its position
and gets the new value; a new key is appended at the end. -/
def dictSet (d : List (String × BaseNode)) (k : String) (v : BaseNode) :
    List (String × BaseNode) :=
  if hasKey d k then d.map (fun p => if p.1 = k then (k, v) else p)
  else d ++ [(k, v)]

/-- The keys of a dict in insertion order. -/
def dictKeys (d : List (String × BaseNode)) : List String := d.map Prod.fst

/-- The staging dict after assigning each node of a list in order under
its id, as the loop body of add does. -/
def stageAll (d : List (String × BaseNode)) (nodes : List BaseNode) :
    List (String × BaseNode) :=
  nodes.foldl (fun acc n => dictSet acc n.id_ n) d

/-- The OracleVectorStore instance state.  The three fields assigned by
the constructor are verbose, enable_hnsw_indexes and node_dict; the
field extra_attrs models every other attribute of the Python instance
dictionary (so an attribute the program never assigns, such as DSN, is
an absent entry there). -/
structure OracleVectorStore where
  verbose : Bool
  enable_hnsw_indexes : Bool
  node_dict : List (String × BaseNode)
  extra_attrs : List (String × String)
deriving DecidableEq, Repr

/-- The constructor: assigns exactly verbose, enable_hnsw_indexes and an
empty node_dict, and nothing else. -/
def OracleVectorStore.init (verbose enable_hnsw_indexes : Bool) : OracleVectorStore :=
  ⟨verbose, enable_hnsw_indexes, [], []⟩

/-- Reading an instance attribute outside the three constructor-assigned
fields, as Python getattr does: none models an AttributeError. -/
def getAttr (s : OracleVectorStore) (name : String) : Option String :=
  (s.extra_attrs.find? (fun p => p.1 = name)).map Prod.snd

/-- add: stage each node in the in-memory dict under its id (an existing
id is overwritten) and return the list of ids of this call. -/
def OracleVectorStore.add (s : OracleVectorStore) (nodes : List BaseNode) :
    OracleVectorStore × List String :=
  nodes.foldl
    (fun acc node =>
      ({ acc.1 with node_dict := dictSet acc.1.node_dict node.id_ node },
       acc.2 ++ [node.id_]))
    (s, [])

/-- A Python exception escaping a store operation. -/
inductive StoreError where
  | notImplementedError (msg : String)
  | attributeError (name : String)
  | connectionError
  | criticalSaveError
deriving DecidableEq, Repr

/-- delete: raise NotImplementedError unconditionally. -/
def OracleVectorStore.delete (_s : OracleVectorStore) (_node_id : String) :
    Except StoreError Unit :=
  .error (.notImplementedError "Delete not yet implemented for Oracle Vector Store.")

/-- One row of the INSERT INTO CHUNKS statement: the five bound
parameters id, chunk text, encoded vector, page number and book id. -/
structure ChunkInsert where
  id : String
  chunk : String
  vec : List ℕ
  page_num : Int
  book_id : Option String
deriving DecidableEq, Repr

/-- The insert loop of save_chunks_with_embeddings_in_db: one execute
per row; a row whose execute raises (rowFails at its position) is
counted in tot_errors and skipped, and the loop continues.  Returns the
successfully executed inserts in order and tot_errors. -/
def saveLoop (EMBEDDINGS_BITS : ℕ) (book_id : Option String) (rowFails : ℕ → Bool) :
    ℕ → List (String × String × Int × List ℚ) → List ChunkInsert × ℕ
  | _, [] => ([], 0)
  | i, (id, text, page_num, vector) :: rest =>
    let input_array := array_array (array_type EMBEDDINGS_BITS) vector
    let acc := saveLoop EMBEDDINGS_BITS book_id rowFails (i + 1) rest
    if rowFails i then (acc.1, acc.2 + 1)
    else (⟨id, text, input_array, page_num, book_id⟩ :: acc.1, acc.2)

/-- save_chunks_with_embeddings_in_db: open one cursor (whose failure is
a critical error that re-raises) and run the tolerant insert loop over
the zipped per-row data. -/
def save_chunks_with_embeddings_in_db (EMBEDDINGS_BITS : ℕ)
    (rows : List (String × String × Int × List ℚ)) (book_id : Option String)
    (cursorFail : Bool) (rowFails : ℕ → Bool) :
    Except StoreError (List ChunkInsert × ℕ) :=
  if cursorFail then .error .criticalSaveError
  else .ok (saveLoop EMBEDDINGS_BITS book_id rowFails 0 rows)

/-- Observable behaviour of the database at the persist boundary: the
connection attempt fails, or a connection is obtained whose cursor may
fail and whose individual INSERT executions fail at the given row
positions. -/
inductive ConnBehavior where
  | connectFail
  | connected (cursorFail : Bool) (rowFails : ℕ → Bool)

/-- Outcome of a persist call: the instance state after the call, the
rows durably written (committed), and the exception it raised, if any. -/
structure PersistOutcome where
  store : OracleVectorStore
  writes : List ChunkInsert
  error : Option StoreError
deriving DecidableEq

/-- persist: no-op on an empty staging buffer.  Otherwise build the
per-row data from node_dict, read self.DSN to assemble the connection
arguments (an unassigned attribute raises AttributeError there, before
any connection is opened), connect, run
save_chunks_with_embeddings_in_db with book_id None, commit, and clear
node_dict.  An exception leaves node_dict as it was and commits
nothing. -/
def OracleVectorStore.persist (s : OracleVectorStore) (EMBEDDINGS_BITS : ℕ)
    (conn : ConnBehavior) : PersistOutcome :=
  if s.node_dict.isEmpty then ⟨s, [], none⟩
  else
    let rows := s.node_dict.map (fun p => (p.2.id_, p.2.text, p.2.page, p.2.embedding))
    match getAttr s "DSN" with
    | none => ⟨s, [], some (.attributeError "DSN")⟩
    | some _dsn =>
      match conn with
      | .connectFail => ⟨s, [], some .connectionError⟩
      | .connected cursorFail rowFails =>
        match save_chunks_with_embeddings_in_db EMBEDDINGS_BITS rows none cursorFail rowFails with
        | .error err => ⟨s, [], some err⟩
        | .ok (writes, _tot_errors) => ⟨{ s with node_dict := [] }, writes, none⟩

/-- query method: read top_k from the session state and delegate to
oracle_query with approximate = enable_hnsw_indexes. -/
def OracleVectorStore.query (s : OracleVectorStore) (db : DbBehavior)
    (EMBEDDINGS_BITS : ℕ) (query_embedding : List ℚ) (session_top_k : ℕ)
    (session_similarity : ℚ) : Option VectorStoreQueryResult :=
  oracle_query db EMBEDDINGS_BITS query_embedding session_top_k
    s.enable_hnsw_indexes session_similarity

/-- One caller-visible operation on a store instance, with the external
database behaviour it observes. -/
inductive StoreOp where
  | addOp (nodes : List BaseNode)
  | deleteOp (node_id : String)
  | persistOp (EMBEDDINGS_BITS : ℕ) (conn : ConnBehavior)
  | queryOp

/-- The instance state after one operation (delete raises and query only
reads, so both leave the state unchanged). -/
def applyOp (s : OracleVectorStore) : StoreOp → OracleVectorStore
  | .addOp nodes => (s.add nodes).1
  | .deleteOp _ => s
  | .persistOp bits conn => (s.persist bits conn).store
  | .queryOp => s

/-- The instance state after a sequence of operations. -/
def runOps (s : OracleVectorStore) (ops : List StoreOp) : OracleVectorStore :=
  ops.foldl applyOp s

/- ---------------------------------------------------------------------
   Concrete rows, nodes and stores used by witnesses and counterexamples.
   --------------------------------------------------------------------- -/

/-- A candidate row at cosine distance 1/5 with readable CLOB text. -/
def cexRow : Row := ⟨"c1", some "hello", 3, 1/5, "bookA"⟩

/-- A candidate row whose CLOB read fails. -/
def badRow : Row := ⟨"b1", none, 1, 0, "bookB"⟩

/-- A candidate row at cosine distance 9/10 (similarity 1/10). -/
def farRow : Row := ⟨"f1", some "far", 2, 9/10, "bookB"⟩

/-- A candidate row at cosine distance 1/10 (similarity 9/10). -/
def nearRow : Row := ⟨"n1", some "near", 4, 1/10, "bookC"⟩

/-- A candidate row at cosine distance 3/10 (similarity 7/10). -/
def midRow : Row := ⟨"m1", some "mid", 5, 3/10, "bookC"⟩

/-- A staged node. -/
def node1 : BaseNode := ⟨"c1", "hello", [1/2], 1⟩

/-- A second staged node with a distinct id. -/
def node2 : BaseNode := ⟨"c2", "world", [3/10], 2⟩

/- ---------------------------------------------------------------------
   Helper lemmas: sorting, the row loop, and the query result shape.
   --------------------------------------------------------------------- -/

unseal Rat.mul Rat.inv Rat.add Rat.sub

theorem insertByDist_perm (r : Row) (l : List Row) :
    List.Perm (insertByDist r l) (r :: l) := by
  induction l with
  | nil => exact List.Perm.refl _
  | cons x xs ih =>
    simp only [insertByDist]
    split
    · exact List.Perm.refl _
    · exact (ih.cons x).trans (List.Perm.swap r x xs)

theorem sortByDist_perm (l : List Row) : List.Perm (sortByDist l) l := by
  induction l with
  | nil => exact List.Perm.refl _
  | cons x xs ih =>
    exact (insertByDist_perm x (sortByDist xs)).trans (ih.cons x)

theorem pairwise_insertByDist {r : Row} {l : List Row}
    (h : l.Pairwise (fun a b => a.dist ≤ b.dist)) :
    (insertByDist r l).Pairwise (fun a b => a.dist ≤ b.dist) := by
  induction l with
  | nil => simp [insertByDist]
  | cons x xs ih =>
    rcases List.pairwise_cons.mp h with ⟨hx, hxs⟩
    simp only [insertByDist]
    split
    case isTrue hle =>
      refine List.pairwise_cons.mpr ⟨?_, h⟩
      intro b hb
      rcases List.mem_cons.mp hb with rfl | hb2
      · exact hle
      · exact le_trans hle (hx b hb2)
    case isFalse hgt =>
      have hxr : x.dist ≤ r.dist := le_of_not_le hgt
      refine List.pairwise_cons.mpr ⟨?_, ih hxs⟩
      intro b hb
      have hb2 : b ∈ r :: xs := (insertByDist_perm r xs).mem_iff.mp hb
      rcases List.mem_cons.mp hb2 with rfl | hb3
      · exact hxr
      · exact hx b hb3

theorem pairwise_sortByDist (l : List Row) :
    (sortByDist l).Pairwise (fun a b => a.dist ≤ b.dist) := by
  induction l with
  | nil => simp [sortByDist]
  | cons x xs ih => exact pairwise_insertByDist ih

theorem pairwise_fetchFirstRows (cands : List Row) (k : ℕ) :
    (fetchFirstRows cands k).Pairwise (fun a b => a.dist ≤ b.dist) :=
  (pairwise_sortByDist cands).sublist (List.take_sublist k (sortByDist cands))

theorem processRows_eq_ok (floor : ℚ) (rows : List Row)
    (h : ∀ r ∈ rows, r.clobRead ≠ none) :
    processRows floor rows =
      .ok ((rows.filter (passesFloor floor)).map rowNode,
           (rows.filter (passesFloor floor)).map Row.id,
           (rows.filter (passesFloor floor)).map Row.dist) := by
  induction rows with
  | nil => rfl
  | cons r rs ih =>
    have hr := h r (List.mem_cons_self r rs)
    have hrs : ∀ x ∈ rs, x.clobRead ≠ none := fun x hx => h x (List.mem_cons_of_mem r hx)
    cases hcl : r.clobRead with
    | none => exact absurd hcl hr
    | some txt =>
      by_cases hp : passesFloor floor r
      · simp [processRows, hp, hcl, ih hrs, List.filter_cons, rowNode]
      · simp [processRows, hp, ih hrs, List.filter_cons]

theorem processRows_error (floor : ℚ) (rows : List Row)
    (h : ∃ r ∈ rows, passesFloor floor r = true ∧ r.clobRead = none) :
    processRows floor rows = .error .decodeError := by
  induction rows with
  | nil => simp at h
  | cons r rs ih =>
    obtain ⟨x, hx, hpass, hnone⟩ := h
    rcases List.mem_cons.mp hx with rfl | hx2
    · simp [processRows, hpass, hnone]
    · by_cases hp : passesFloor floor r
      · cases hcl : r.clobRead with
        | none => simp [processRows, hp, hcl]
        | some txt => simp [processRows, hp, hcl, ih ⟨x, hx2, hpass, hnone⟩]
      · simpa [processRows, hp] using ih ⟨x, hx2, hpass, hnone⟩

theorem processRows_none_pass (floor : ℚ) (rows : List Row)
    (h : ∀ r ∈ rows, passesFloor floor r = false) :
    processRows floor rows = .ok ([], [], []) := by
  induction rows with
  | nil => rfl
  | cons r rs ih =>
    have hr := h r (List.mem_cons_self r rs)
    have hrs : ∀ x ∈ rs, passesFloor floor x = false :=
      fun x hx => h x (List.mem_cons_of_mem r hx)
    simp [processRows, hr, ih hrs]

theorem processRows_ok_inv (floor : ℚ) (rows : List Row)
    (ns : List TextNode) (ids : List String) (sims : List ℚ)
    (h : processRows floor rows = .ok (ns, ids, sims)) :
    ids = (rows.filter (passesFloor floor)).map Row.id ∧
    sims = (rows.filter (passesFloor floor)).map Row.dist ∧
    ns.map TextNode.similarity_score
      = (rows.filter (passesFloor floor)).map (fun r => 1 - r.dist) ∧
    ns.map TextNode.id_ = (rows.filter (passesFloor floor)).map Row.id := by
  induction rows generalizing ns ids sims with
  | nil =>
    simp only [processRows, Except.ok.injEq, Prod.mk.injEq] at h
    obtain ⟨h1, h2, h3⟩ := h
    subst h1; subst h2; subst h3
    simp
  | cons r rs ih =>
    by_cases hp : passesFloor floor r
    · cases hcl : r.clobRead with
      | none => simp [processRows, hp, hcl] at h
      | some txt =>
        cases hrec : processRows floor rs with
        | error err => simp [processRows, hp, hcl, hrec] at h
        | ok triple =>
          obtain ⟨ns2, ids2, sims2⟩ := triple
          simp only [processRows, hp, if_true, hcl, hrec, Except.ok.injEq,
            Prod.mk.injEq] at h
          obtain ⟨h1, h2, h3⟩ := h
          subst h1; subst h2; subst h3
          obtain ⟨g1, g2, g3, g4⟩ := ih ns2 ids2 sims2 hrec
          simp [List.filter_cons, hp, g1, g2, g3, g4]
    · simp only [processRows, hp] at h
      obtain ⟨g1, g2, g3, g4⟩ := ih ns ids sims h
      simp [List.filter_cons, hp, g1, g2, g3, g4]

theorem oracle_query_some_inv {cands : List Row} {bits : ℕ} {e : List ℚ} {k : ℕ}
    {a : Bool} {f : ℚ} {res : VectorStoreQueryResult}
    (h : oracle_query (.rowsReturned cands) bits e k a f = some res) :
    res.ids = ((fetchFirstRows cands k).filter (passesFloor f)).map Row.id ∧
    res.similarities = ((fetchFirstRows cands k).filter (passesFloor f)).map Row.dist ∧
    res.nodes.map TextNode.similarity_score
      = ((fetchFirstRows cands k).filter (passesFloor f)).map (fun r => 1 - r.dist) ∧
    res.nodes.map TextNode.id_
      = ((fetchFirstRows cands k).filter (passesFloor f)).map Row.id := by
  unfold oracle_query at h
  cases hpr : processRows f (fetchFirstRows cands k) with
  | error err => simp [hpr] at h
  | ok triple =>
    obtain ⟨ns, ids, sims⟩ := triple
    simp only [hpr, Option.some.injEq] at h
    subst h
    obtain ⟨g1, g2, g3, g4⟩ := processRows_ok_inv f (fetchFirstRows cands k) ns ids sims hpr
    exact ⟨g1, g2, g3, g4⟩

theorem passesFloor_iff {f : ℚ} {r : Row} : passesFloor f r = true ↔ f ≤ 1 - r.dist := by
  simp [passesFloor]

theorem no_qualifying_rows_beyond_topk {bits : ℕ} {e : List ℚ} {k : ℕ} {a : Bool}
    {f : ℚ} {cands : List Row} {res : VectorStoreQueryResult}
    (h : oracle_query (.rowsReturned cands) bits e k a f = some res)
    (hlt : res.ids.length < k) :
    ∀ r ∈ (sortByDist cands).drop k, passesFloor f r = false := by
  obtain ⟨g1, g2, g3, g4⟩ := oracle_query_some_inv h
  rw [g1, List.length_map] at hlt
  intro r hr
  by_contra hpassne
  have hpass : passesFloor f r = true := by
    cases hpb : passesFloor f r
    · exact absurd hpb hpassne
    · rfl
  have hklen : k ≤ (sortByDist cands).length := by
    by_contra hk
    push_neg at hk
    rw [List.drop_eq_nil_of_le (le_of_lt hk)] at hr
    simp at hr
  have htake : (fetchFirstRows cands k).length = k := by
    simp [fetchFirstRows, List.length_take, Nat.min_eq_left hklen]
  have hlt2 : ((fetchFirstRows cands k).filter (passesFloor f)).length <
      (fetchFirstRows cands k).length := by
    rw [htake]; exact hlt
  obtain ⟨x, hxmem, hxfail⟩ := List.length_filter_lt_length_iff_exists.mp hlt2
  have hxmem2 : x ∈ (sortByDist cands).take k := hxmem
  have hxr : x.dist ≤ r.dist := by
    have hp := pairwise_sortByDist cands
    rw [← List.take_append_drop k (sortByDist cands)] at hp
    exact (List.pairwise_append.mp hp).2.2 x hxmem2 r hr
  have h1 : f ≤ 1 - r.dist := passesFloor_iff.mp hpass
  have h2 : ¬ f ≤ 1 - x.dist := by simpa [passesFloor] using hxfail
  exact h2 (le_trans h1 (by linarith))

/- ---------------------------------------------------------------------
   Claim theorems.
   --------------------------------------------------------------------- -/

/-- C1 (amended): a connection error, a statement-execution error, or a
CLOB decode error makes oracle_query log and return None rather than
raise, while a query that succeeds with no row meeting the similarity
floor returns an empty VectorStoreQueryResult — a value that is not
identical to the None returned on failure. -/
theorem c1_errors_return_none (bits : ℕ) (e : List ℚ) (k : ℕ) (a : Bool) (f : ℚ)
    (cands cands2 : List Row)
    (hbad : ∃ r ∈ fetchFirstRows cands k, passesFloor f r = true ∧ r.clobRead = none)
    (hmiss : ∀ r ∈ fetchFirstRows cands2 k, passesFloor f r = false) :
    oracle_query .connectionError bits e k a f = none ∧
    oracle_query .executeError bits e k a f = none ∧
    oracle_query (.rowsReturned cands) bits e k a f = none ∧
    oracle_query (.rowsReturned cands2) bits e k a f = some ⟨[], [], []⟩ ∧
    oracle_query (.rowsReturned cands2) bits e k a f ≠
      oracle_query (.rowsReturned cands) bits e k a f := by
  have h3 : oracle_query (.rowsReturned cands) bits e k a f = none := by
    have hpe := processRows_error f (fetchFirstRows cands k) hbad
    simp [oracle_query, hpe]
  have h4 : oracle_query (.rowsReturned cands2) bits e k a f = some ⟨[], [], []⟩ := by
    have hpn := processRows_none_pass f (fetchFirstRows cands2 k) hmiss
    simp [oracle_query, hpn]
  refine ⟨rfl, rfl, h3, h4, ?_⟩
  rw [h3, h4]
  exact fun hc => Option.noConfusion hc

theorem c1_errors_return_none_witness :
    (∃ r ∈ fetchFirstRows [badRow] 3, passesFloor (1/2) r = true ∧ r.clobRead = none) ∧
    (∀ r ∈ fetchFirstRows [farRow] 3, passesFloor (1/2) r = false) ∧
    (oracle_query .connectionError 32 [1] 3 false (1/2) = none ∧
     oracle_query .executeError 32 [1] 3 false (1/2) = none ∧
     oracle_query (.rowsReturned [badRow]) 32 [1] 3 false (1/2) = none ∧
     oracle_query (.rowsReturned [farRow]) 32 [1] 3 false (1/2) = some ⟨[], [], []⟩ ∧
     oracle_query (.rowsReturned [farRow]) 32 [1] 3 false (1/2) ≠
       oracle_query (.rowsReturned [badRow]) 32 [1] 3 false (1/2)) :=
  ⟨by decide, by decide,
   c1_errors_return_none 32 [1] 3 false (1/2) [badRow] [farRow] (by decide) (by decide)⟩

/-- C1 counterexample: a failed query returns None while a successful
query with no qualifying row returns an empty VectorStoreQueryResult, so
the two outcomes are not identical values. -/
theorem c1_counterexample :
    oracle_query .connectionError 32 [1] 3 false (1/2) = none ∧
    oracle_query (.rowsReturned [farRow]) 32 [1] 3 false (1/2) = some ⟨[], [], []⟩ ∧
    oracle_query .connectionError 32 [1] 3 false (1/2) ≠
      oracle_query (.rowsReturned [farRow]) 32 [1] 3 false (1/2) := by
  decide

/-- C4 (amended): in every successful query the similarities list holds
each matched row's raw cosine distance, while 1 minus that distance is
attached to the corresponding node as its Similarity Score metadata. -/
theorem c4_similarities_hold_raw_distance (bits : ℕ) (e : List ℚ) (k : ℕ) (a : Bool)
    (f : ℚ) (cands : List Row) (res : VectorStoreQueryResult)
    (h : oracle_query (.rowsReturned cands) bits e k a f = some res) :
    res.similarities = ((fetchFirstRows cands k).filter (passesFloor f)).map Row.dist ∧
    res.nodes.map TextNode.similarity_score
      = ((fetchFirstRows cands k).filter (passesFloor f)).map (fun r => 1 - r.dist) := by
  obtain ⟨g1, g2, g3, g4⟩ := oracle_query_some_inv h
  exact ⟨g2, g3⟩

theorem c4_similarities_hold_raw_distance_witness :
    (oracle_query (.rowsReturned [cexRow]) 32 [1] 5 false 0 =
      some ⟨[⟨"c1", "hello", "bookA", 3, 4/5⟩], [1/5], ["c1"]⟩) ∧
    (VectorStoreQueryResult.similarities ⟨[⟨"c1", "hello", "bookA", 3, 4/5⟩], [1/5], ["c1"]⟩
        = ((fetchFirstRows [cexRow] 5).filter (passesFloor 0)).map Row.dist ∧
      List.map TextNode.similarity_score
          (VectorStoreQueryResult.nodes ⟨[⟨"c1", "hello", "bookA", 3, 4/5⟩], [1/5], ["c1"]⟩)
        = ((fetchFirstRows [cexRow] 5).filter (passesFloor 0)).map (fun r => 1 - r.dist)) :=
  ⟨by decide,
   c4_similarities_hold_raw_distance 32 [1] 5 false 0 [cexRow]
     ⟨[⟨"c1", "hello", "bookA", 3, 4/5⟩], [1/5], ["c1"]⟩ (by decide)⟩

/-- C4 counterexample: for the single matched row at cosine distance 1/5
the returned similarity list is [1/5], the raw distance, and not
[1 - 1/5] = [4/5]; the node metadata carries 4/5. -/
theorem c4_counterexample :
    oracle_query (.rowsReturned [cexRow]) 32 [1] 5 false 0 =
      some ⟨[⟨"c1", "hello", "bookA", 3, 4/5⟩], [1/5], ["c1"]⟩ ∧
    ((1 : ℚ)/5) ≠ 1 - cexRow.dist := by
  decide

/-- C5: in a successful query every matched row satisfies
1 - distance ≥ similarity_floor, and raising the floor never enlarges
the result: the higher-floor ids are a sublist of the lower-floor ids,
so their count never increases. -/
theorem c5_floor_filter_antitone (bits : ℕ) (e : List ℚ) (k : ℕ) (a : Bool)
    (f g : ℚ) (cands : List Row) (resf resg : VectorStoreQueryResult)
    (hf : oracle_query (.rowsReturned cands) bits e k a f = some resf)
    (hg : oracle_query (.rowsReturned cands) bits e k a g = some resg)
    (hfg : f ≤ g) :
    (∀ d ∈ resf.similarities, f ≤ 1 - d) ∧
    (∀ n ∈ resf.nodes, f ≤ n.similarity_score) ∧
    List.Sublist resg.ids resf.ids ∧
    resg.ids.length ≤ resf.ids.length := by
  obtain ⟨f1, f2, f3, f4⟩ := oracle_query_some_inv hf
  obtain ⟨g1, g2, g3, g4⟩ := oracle_query_some_inv hg
  have himp : ∀ r : Row, passesFloor g r → passesFloor f r := by
    intro r hgr
    exact passesFloor_iff.mpr (le_trans hfg (passesFloor_iff.mp hgr))
  have hsub : List.Sublist resg.ids resf.ids := by
    rw [g1, f1]
    exact (List.monotone_filter_right _ himp).map Row.id
  refine ⟨?_, ?_, hsub, hsub.length_le⟩
  · intro d hd
    rw [f2] at hd
    obtain ⟨r, hrmem, rfl⟩ := List.mem_map.mp hd
    exact passesFloor_iff.mp (List.of_mem_filter hrmem)
  · intro n hn
    have : n.similarity_score ∈ List.map TextNode.similarity_score resf.nodes :=
      List.mem_map.mpr ⟨n, hn, rfl⟩
    rw [f3] at this
    obtain ⟨r, hrmem, heq⟩ := List.mem_map.mp this
    rw [← heq]
    exact passesFloor_iff.mp (List.of_mem_filter hrmem)

theorem c5_floor_filter_antitone_witness :
    (oracle_query (.rowsReturned [nearRow, farRow]) 32 [1] 3 false 0 =
      some ⟨[⟨"n1", "near", "bookC", 4, 9/10⟩, ⟨"f1", "far", "bookB", 2, 1/10⟩],
            [1/10, 9/10], ["n1", "f1"]⟩) ∧
    (oracle_query (.rowsReturned [nearRow, farRow]) 32 [1] 3 false (1/2) =
      some ⟨[⟨"n1", "near", "bookC", 4, 9/10⟩], [1/10], ["n1"]⟩) ∧
    ((0 : ℚ) ≤ 1/2) ∧
    ((∀ d ∈ [(1:ℚ)/10, 9/10], (0:ℚ) ≤ 1 - d) ∧
     (∀ n ∈ [(⟨"n1", "near", "bookC", 4, 9/10⟩ : TextNode),
             ⟨"f1", "far", "bookB", 2, 1/10⟩], (0:ℚ) ≤ n.similarity_score) ∧
     List.Sublist ["n1"] ["n1", "f1"] ∧
     (["n1"] : List String).length ≤ (["n1", "f1"] : List String).length) :=
  ⟨by decide, by decide, by decide,
   c5_floor_filter_antitone 32 [1] 3 false 0 (1/2) [nearRow, farRow]
     ⟨[⟨"n1", "near", "bookC", 4, 9/10⟩, ⟨"f1", "far", "bookB", 2, 1/10⟩],
       [1/10, 9/10], ["n1", "f1"]⟩
     ⟨[⟨"n1", "near", "bookC", 4, 9/10⟩], [1/10], ["n1"]⟩
     (by decide) (by decide) (by decide)⟩

/-- C6 (amended): at most top_k ranked rows are considered before the
similarity-floor filter, so a successful result holds at most top_k
items whose rows come from the top_k closest rows; the filter can return
fewer than top_k results, but whenever it does, no row beyond the top_k
satisfies the floor, because rows are ranked by ascending distance and
the floor test is antitone in distance. -/
theorem c6_topk_bound (bits : ℕ) (e : List ℚ) (k : ℕ) (a : Bool) (f : ℚ)
    (cands : List Row) (res : VectorStoreQueryResult)
    (h : oracle_query (.rowsReturned cands) bits e k a f = some res) :
    res.ids.length ≤ k ∧
    List.Sublist res.ids ((fetchFirstRows cands k).map Row.id) ∧
    (res.ids.length < k → ∀ r ∈ (sortByDist cands).drop k, passesFloor f r = false) := by
  obtain ⟨g1, g2, g3, g4⟩ := oracle_query_some_inv h
  refine ⟨?_, ?_, fun hlt => no_qualifying_rows_beyond_topk h hlt⟩
  · rw [g1, List.length_map]
    exact le_trans (List.filter_sublist _).length_le (List.length_take_le k _)
  · rw [g1]
    exact (List.filter_sublist _).map Row.id

theorem c6_topk_bound_witness :
    (oracle_query (.rowsReturned [nearRow, farRow]) 32 [1] 2 false (1/2) =
      some ⟨[⟨"n1", "near", "bookC", 4, 9/10⟩], [1/10], ["n1"]⟩) ∧
    ((["n1"] : List String).length ≤ 2 ∧
     List.Sublist ["n1"] ((fetchFirstRows [nearRow, farRow] 2).map Row.id) ∧
     ((["n1"] : List String).length < 2 →
       ∀ r ∈ (sortByDist [nearRow, farRow]).drop 2, passesFloor (1/2) r = false)) :=
  ⟨by decide,
   c6_topk_bound 32 [1] 2 false (1/2) [nearRow, farRow]
     ⟨[⟨"n1", "near", "bookC", 4, 9/10⟩], [1/10], ["n1"]⟩ (by decide)⟩

/-- C6 counterexample: the claimed possibility is impossible in this
code: there is no query in which the filter returns fewer than top_k
results while some row beyond the top_k satisfies the floor, since rows
are ranked by ascending distance and the floor test is antitone in
distance. -/
theorem c6_counterexample :
    ¬ ∃ (bits : ℕ) (e : List ℚ) (k : ℕ) (a : Bool) (f : ℚ) (cands : List Row)
        (res : VectorStoreQueryResult),
      oracle_query (.rowsReturned cands) bits e k a f = some res ∧
      res.ids.length < k ∧
      ∃ r ∈ (sortByDist cands).drop k, passesFloor f r = true := by
  rintro ⟨bits, e, k, a, f, cands, res, h, hlt, r, hr, hpass⟩
  have := no_qualifying_rows_beyond_topk h hlt r hr
  rw [this] at hpass
  exact Bool.noConfusion hpass

/-- C7: a successful query's outputs preserve the store's ascending
distance ranking: the similarities list (which holds the raw distances)
is ascending, the nodes' Similarity Score metadata is descending, and
the ids list is the nodes' ids in the same order. -/
theorem c7_results_ordered (bits : ℕ) (e : List ℚ) (k : ℕ) (a : Bool) (f : ℚ)
    (cands : List Row) (res : VectorStoreQueryResult)
    (h : oracle_query (.rowsReturned cands) bits e k a f = some res) :
    res.similarities.Pairwise (fun x y => x ≤ y) ∧
    (res.nodes.map TextNode.similarity_score).Pairwise (fun x y => y ≤ x) ∧
    res.ids = res.nodes.map TextNode.id_ := by
  obtain ⟨g1, g2, g3, g4⟩ := oracle_query_some_inv h
  have hfilt : ((fetchFirstRows cands k).filter (passesFloor f)).Pairwise
      (fun a b => a.dist ≤ b.dist) :=
    (pairwise_fetchFirstRows cands k).sublist (List.filter_sublist _)
  refine ⟨?_, ?_, g1.trans g4.symm⟩
  · rw [g2]
    exact List.pairwise_map.mpr hfilt
  · rw [g3]
    exact List.pairwise_map.mpr (hfilt.imp (fun hab => by simpa using sub_le_sub_left hab 1))

theorem c7_results_ordered_witness :
    (oracle_query (.rowsReturned [farRow, nearRow]) 32 [1] 3 false 0 =
      some ⟨[⟨"n1", "near", "bookC", 4, 9/10⟩, ⟨"f1", "far", "bookB", 2, 1/10⟩],
            [1/10, 9/10], ["n1", "f1"]⟩) ∧
    (([( 1:ℚ)/10, 9/10] : List ℚ).Pairwise (fun x y => x ≤ y) ∧
     (List.map TextNode.similarity_score
        [(⟨"n1", "near", "bookC", 4, 9/10⟩ : TextNode),
         ⟨"f1", "far", "bookB", 2, 1/10⟩]).Pairwise (fun x y => y ≤ x) ∧
     (["n1", "f1"] : List String) =
       List.map TextNode.id_
         [(⟨"n1", "near", "bookC", 4, 9/10⟩ : TextNode),
          ⟨"f1", "far", "bookB", 2, 1/10⟩]) :=
  ⟨by decide,
   c7_results_ordered 32 [1] 3 false 0 [farRow, nearRow]
     ⟨[⟨"n1", "near", "bookC", 4, 9/10⟩, ⟨"f1", "far", "bookB", 2, 1/10⟩],
       [1/10, 9/10], ["n1", "f1"]⟩ (by decide)⟩

/- ---------------------------------------------------------------------
   Dict and staging lemmas.
   --------------------------------------------------------------------- -/

theorem dictSet_cons_ne {p : String × BaseNode} {d : List (String × BaseNode)}
    {k : String} {v : BaseNode} (hp : p.1 ≠ k) :
    dictSet (p :: d) k v = p :: dictSet d k v := by
  have hh : hasKey (p :: d) k = hasKey d k := by simp [hasKey, hp]
  by_cases hk : hasKey d k
  · simp [dictSet, hh, hk, hp]
  · simp [dictSet, hh, hk, hp]

theorem dictGet_map_ne {d : List (String × BaseNode)} {k j : String} {v : BaseNode}
    (hj : j ≠ k) :
    dictGet (d.map (fun q => if q.1 = k then (k, v) else q)) j = dictGet d j := by
  induction d with
  | nil => rfl
  | cons q d ih =>
    by_cases hq : q.1 = k
    · simp [dictGet, hq, Ne.symm hj, ih]
    · simp [dictGet, hq, ih]

theorem dictGet_dictSet (d : List (String × BaseNode)) (k j : String) (v : BaseNode) :
    dictGet (dictSet d k v) j = if j = k then some v else dictGet d j := by
  induction d with
  | nil =>
    by_cases h : j = k
    · simp [dictSet, hasKey, dictGet, h]
    · simp [dictSet, hasKey, dictGet, h, Ne.symm h]
  | cons p d ih =>
    by_cases hp : p.1 = k
    · have hk : hasKey (p :: d) k = true := by simp [hasKey, hp]
      simp only [dictSet, hk, if_true, List.map_cons, if_pos hp]
      by_cases hj : j = k
      · subst hj; simp [dictGet]
      · simp [dictGet, hj, Ne.symm hj, hp, dictGet_map_ne hj]
    · rw [dictSet_cons_ne hp]
      by_cases hj : j = k
      · subst hj
        have hpj : p.1 ≠ j := hp
        simp [dictGet, hpj, ih]
      · by_cases hpj : p.1 = j
        · simp [dictGet, hpj, hj]
        · simp [dictGet, hpj, hj, ih]

theorem hasKey_eq_mem (d : List (String × BaseNode)) (k : String) :
    hasKey d k = true ↔ k ∈ dictKeys d := by
  induction d with
  | nil => simp [hasKey, dictKeys]
  | cons p d ih =>
    by_cases hp : p.1 = k
    · simp [hasKey, dictKeys, hp]
    · simp [hasKey, dictKeys, hp, Ne.symm hp, ih]

theorem dictKeys_map_replace (d : List (String × BaseNode)) (k : String) (v : BaseNode) :
    dictKeys (d.map (fun q => if q.1 = k then (k, v) else q)) = dictKeys d := by
  simp only [dictKeys, List.map_map]
  apply List.map_congr_left
  intro q hq
  by_cases hp : q.1 = k
  · simp [Function.comp, hp]
  · simp [Function.comp, hp]

theorem dictKeys_dictSet_mem {d : List (String × BaseNode)} {k : String}
    {v : BaseNode} (hk : hasKey d k = true) :
    dictKeys (dictSet d k v) = dictKeys d := by
  simp [dictSet, hk, dictKeys_map_replace]

theorem dictKeys_dictSet_not_mem {d : List (String × BaseNode)} {k : String}
    {v : BaseNode} (hk : hasKey d k = false) :
    dictKeys (dictSet d k v) = dictKeys d ++ [k] := by
  simp [dictSet, hk, dictKeys]

theorem nodup_dictKeys_dictSet {d : List (String × BaseNode)} {k : String}
    {v : BaseNode} (h : (dictKeys d).Nodup) :
    (dictKeys (dictSet d k v)).Nodup := by
  cases hk : hasKey d k
  · rw [dictKeys_dictSet_not_mem hk]
    have hmem : k ∉ dictKeys d := by
      intro hm
      rw [(hasKey_eq_mem d k).mpr hm] at hk
      exact Bool.noConfusion hk
    simp [List.nodup_append, h, hmem]
  · rw [dictKeys_dictSet_mem hk]
    exact h

theorem toFinset_dictKeys_dictSet (d : List (String × BaseNode)) (k : String)
    (v : BaseNode) :
    (dictKeys (dictSet d k v)).toFinset = insert k (dictKeys d).toFinset := by
  cases hk : hasKey d k
  · rw [dictKeys_dictSet_not_mem hk]
    simp [List.toFinset_append, Finset.insert_eq, Finset.union_comm]
  · rw [dictKeys_dictSet_mem hk]
    have hmem : k ∈ (dictKeys d).toFinset :=
      List.mem_toFinset.mpr ((hasKey_eq_mem d k).mp hk)
    rw [Finset.insert_eq_self.mpr hmem]

theorem add_foldl (s : OracleVectorStore) (nodes : List BaseNode) (ids0 : List String) :
    nodes.foldl
      (fun acc node =>
        ({ acc.1 with node_dict := dictSet acc.1.node_dict node.id_ node },
         acc.2 ++ [node.id_]))
      (s, ids0)
      = ({ s with node_dict := stageAll s.node_dict nodes },
         ids0 ++ nodes.map BaseNode.id_) := by
  induction nodes generalizing s ids0 with
  | nil => simp [stageAll]
  | cons n ns ih =>
    rw [List.foldl_cons, ih]
    simp [stageAll]

theorem add_result (s : OracleVectorStore) (nodes : List BaseNode) :
    s.add nodes
      = ({ s with node_dict := stageAll s.node_dict nodes }, nodes.map BaseNode.id_) := by
  have h := add_foldl s nodes []
  simpa [OracleVectorStore.add] using h

theorem toFinset_dictKeys_stageAll (d : List (String × BaseNode)) (ns : List BaseNode) :
    (dictKeys (stageAll d ns)).toFinset
      = (dictKeys d).toFinset ∪ (ns.map BaseNode.id_).toFinset := by
  induction ns generalizing d with
  | nil => simp [stageAll]
  | cons n ns ih =>
    rw [show stageAll d (n :: ns) = stageAll (dictSet d n.id_ n) ns from rfl, ih]
    rw [toFinset_dictKeys_dictSet]
    simp [Finset.insert_union, Finset.union_insert]

theorem nodup_dictKeys_stageAll (d : List (String × BaseNode)) (ns : List BaseNode)
    (h : (dictKeys d).Nodup) : (dictKeys (stageAll d ns)).Nodup := by
  induction ns generalizing d with
  | nil => exact h
  | cons n ns ih => exact ih _ (nodup_dictKeys_dictSet h)

/-- C8: add is pure in-memory staging with last-write-wins semantics:
after a single add of node n, looking up its id yields n (replacing any
prior entry) and every other id is unchanged; and adding N nodes to a
fresh store leaves exactly M staged entries, where M is the number of
distinct ids among them. -/
theorem c8_add_staging (s : OracleVectorStore) (n : BaseNode) (j : String)
    (v e : Bool) (nodes : List BaseNode) :
    dictGet ((s.add [n]).1.node_dict) j
      = (if j = n.id_ then some n else dictGet s.node_dict j) ∧
    ((OracleVectorStore.init v e).add nodes).1.node_dict.length
      = (nodes.map BaseNode.id_).toFinset.card := by
  constructor
  · rw [add_result]
    exact dictGet_dictSet s.node_dict n.id_ j n
  · rw [add_result]
    show (stageAll [] nodes).length = _
    have hnodup : (dictKeys (stageAll ([] : List (String × BaseNode)) nodes)).Nodup :=
      nodup_dictKeys_stageAll _ _ (by simp [dictKeys])
    have hlen : (dictKeys (stageAll [] nodes)).length = (stageAll [] nodes).length := by
      simp [dictKeys]
    rw [← hlen, ← List.toFinset_card_of_nodup hnodup, toFinset_dictKeys_stageAll]
    simp [dictKeys]

/-- C9: delete always fails with the NotImplementedError signal, for
every id and every store state: it never succeeds, never silently
no-ops, and raises no other fault. -/
theorem c9_delete_always_unsupported (s : OracleVectorStore) (node_id : String) :
    s.delete node_id
      = .error (.notImplementedError
          "Delete not yet implemented for Oracle Vector Store.") ∧
    ∀ u : Unit, s.delete node_id ≠ .ok u := by
  exact ⟨rfl, fun u h => Except.noConfusion h⟩

/- ---------------------------------------------------------------------
   Persist lemmas and the reachability invariant for extra attributes.
   --------------------------------------------------------------------- -/

theorem add_extra_attrs (s : OracleVectorStore) (nodes : List BaseNode) :
    (s.add nodes).1.extra_attrs = s.extra_attrs := by
  rw [add_result]

theorem persist_extra_attrs (s : OracleVectorStore) (bits : ℕ) (conn : ConnBehavior) :
    (s.persist bits conn).store.extra_attrs = s.extra_attrs := by
  by_cases he : s.node_dict.isEmpty
  · simp [OracleVectorStore.persist, he]
  · cases hga : getAttr s "DSN" with
    | none => simp [OracleVectorStore.persist, he, hga]
    | some dsn =>
      cases conn with
      | connectFail => simp [OracleVectorStore.persist, he, hga]
      | connected cursorFail rowFails =>
        cases hsv : save_chunks_with_embeddings_in_db bits
            (s.node_dict.map (fun p => (p.2.id_, p.2.text, p.2.page, p.2.embedding)))
            none cursorFail rowFails with
        | error err => simp [OracleVectorStore.persist, he, hga, hsv]
        | ok pr =>
          obtain ⟨writes, tot_errors⟩ := pr
          simp [OracleVectorStore.persist, he, hga, hsv]

theorem applyOp_extra_attrs (s : OracleVectorStore) (op : StoreOp) :
    (applyOp s op).extra_attrs = s.extra_attrs := by
  cases op with
  | addOp nodes => exact add_extra_attrs s nodes
  | deleteOp node_id => rfl
  | persistOp bits conn => exact persist_extra_attrs s bits conn
  | queryOp => rfl

theorem runOps_extra_attrs (s : OracleVectorStore) (ops : List StoreOp) :
    (runOps s ops).extra_attrs = s.extra_attrs := by
  induction ops generalizing s with
  | nil => rfl
  | cons op ops ih => exact (ih (applyOp s op)).trans (applyOp_extra_attrs s op)

theorem persist_attributeError {s : OracleVectorStore} (bits : ℕ) (conn : ConnBehavior)
    (hne : s.node_dict ≠ []) (hattr : getAttr s "DSN" = none) :
    s.persist bits conn = ⟨s, [], some (.attributeError "DSN")⟩ := by
  have he : s.node_dict.isEmpty = false := by
    cases hd : s.node_dict
    · exact absurd hd hne
    · rfl
  simp [OracleVectorStore.persist, he, hattr]

/-- C3: the constructor assigns no DSN attribute and no reachable
operation ever assigns one, so every persist call on a reachable
instance with a non-empty staging buffer raises AttributeError while
assembling the connection arguments — before any connection is opened
or any row is written — and leaves the staging buffer unchanged. -/
theorem c3_persist_fails_on_missing_dsn (v e : Bool) (ops : List StoreOp) (bits : ℕ)
    (conn : ConnBehavior)
    (hne : (runOps (OracleVectorStore.init v e) ops).node_dict ≠ []) :
    getAttr (runOps (OracleVectorStore.init v e) ops) "DSN" = none ∧
    (runOps (OracleVectorStore.init v e) ops).persist bits conn
      = ⟨runOps (OracleVectorStore.init v e) ops, [],
         some (.attributeError "DSN")⟩ := by
  have hattrs : (runOps (OracleVectorStore.init v e) ops).extra_attrs = [] :=
    runOps_extra_attrs (OracleVectorStore.init v e) ops
  have hga : getAttr (runOps (OracleVectorStore.init v e) ops) "DSN" = none := by
    simp [getAttr, hattrs]
  exact ⟨hga, persist_attributeError bits conn hne hga⟩

theorem c3_persist_fails_on_missing_dsn_witness :
    (runOps (OracleVectorStore.init false false) [.addOp [node1]]).node_dict ≠ [] ∧
    (getAttr (runOps (OracleVectorStore.init false false) [.addOp [node1]]) "DSN" = none ∧
     (runOps (OracleVectorStore.init false false) [.addOp [node1]]).persist 32 .connectFail
       = ⟨runOps (OracleVectorStore.init false false) [.addOp [node1]], [],
          some (.attributeError "DSN")⟩) :=
  ⟨by decide,
   c3_persist_fails_on_missing_dsn false false [.addOp [node1]] 32 .connectFail (by decide)⟩

/-- C2: evidence against the claim on the code as written.  An
empty-buffer persist is a no-op with zero writes, as claimed; but a
persist on a non-empty buffer never reaches the claimed behaviour: it
fails with AttributeError on the unassigned DSN attribute before any
connection is opened, performs zero writes, and leaves the buffer
staged.  The insert routine itself, handed rows and a live cursor, does
tolerate an individual failing row — counting and logging it and
attempting the rest — as the claim describes for the intended path. -/
theorem c2_persist_behaviour :
    (OracleVectorStore.init false false).persist 32 (.connected false (fun _ => false))
      = ⟨OracleVectorStore.init false false, [], none⟩ ∧
    ((OracleVectorStore.init false false).add [node1]).1.persist 32
        (.connected false (fun _ => false))
      = ⟨((OracleVectorStore.init false false).add [node1]).1, [],
         some (.attributeError "DSN")⟩ ∧
    save_chunks_with_embeddings_in_db 32
        [("a", "ta", 1, [1/2]), ("b", "tb", 2, [1/2]), ("c", "tc", 3, [1/2])] none
        false (fun i => i == 1)
      = .ok ([⟨"a", "ta", array_array (array_type 32) [1/2], 1, none⟩,
              ⟨"c", "tc", array_array (array_type 32) [1/2], 3, none⟩], 1) := by
  exact ⟨rfl, rfl, rfl⟩

/- ---------------------------------------------------------------------
   Codec lemmas and the round-trip claim.
   --------------------------------------------------------------------- -/

theorem length_natBytesLE (k b : ℕ) : (natBytesLE k b).length = k := by
  induction k generalizing b with
  | zero => rfl
  | succ k ih => simp [natBytesLE, ih]

theorem length_fpEncode (fmt : FpFormat) (x : ℚ) :
    (fpEncode fmt x).length = fmt.numBytes :=
  length_natBytesLE fmt.numBytes (fpBits fmt x)

theorem length_array_array (c : Char) (vs : List ℚ) :
    (array_array c vs).length = (fmtOfArrayType c).numBytes * vs.length := by
  induction vs with
  | nil => simp [array_array]
  | cons x xs ih =>
    simp only [array_array, List.flatMap_cons, List.length_append, length_fpEncode] at *
    rw [ih, List.length_cons, Nat.mul_succ]
    omega

/-- C10: the codec packs every element of the input float sequence as a
fixed-width IEEE value into one contiguous buffer, the element width (4
bytes at 32-bit, 8 bytes at 64-bit) being selected by the static
EMBEDDINGS_BITS configuration flag and not varying within or across
calls; in particular encoding [0.1, 0.2, 0.3] at 32-bit precision
yields a 12-byte buffer whose elements decode back to values within
float32 epsilon (2 to the power -23) of the originals. -/
theorem c10_codec_roundtrip :
    (∀ bits : ℕ, ∀ vs : List ℚ,
      (array_array (array_type bits) vs).length
        = (if bits = 64 then 8 else 4) * vs.length) ∧
    (array_array (array_type 32) [1/10, 2/10, 3/10]).length = 12 ∧
    fpDecodeList fp32 (array_array (array_type 32) [1/10, 2/10, 3/10])
      = [13421773/134217728, 13421773/67108864, 5033165/16777216] ∧
    ((13421773/134217728 : ℚ) - 1/10 ≤ 1/2^23 ∧
      (1/10 : ℚ) - 13421773/134217728 ≤ 1/2^23) ∧
    ((13421773/67108864 : ℚ) - 2/10 ≤ 1/2^23 ∧
      (2/10 : ℚ) - 13421773/67108864 ≤ 1/2^23) ∧
    ((5033165/16777216 : ℚ) - 3/10 ≤ 1/2^23 ∧
      (3/10 : ℚ) - 5033165/16777216 ≤ 1/2^23) := by
  refine ⟨?_, by decide, by decide, by norm_num, by norm_num, by norm_num⟩
  intro bits vs
  by_cases hb : bits = 64
  · simp [array_type, hb, length_array_array, fmtOfArrayType, fp64]
  · simp [array_type, hb, length_array_array, fmtOfArrayType, fp32]

theorem c9_delete_always_unsupported_witness :
    (OracleVectorStore.init false false).delete "chunk-7"
      = .error (.notImplementedError
          "Delete not yet implemented for Oracle Vector Store.") ∧
    ∀ u : Unit, (OracleVectorStore.init false false).delete "chunk-7" ≠ .ok u :=
  c9_delete_always_unsupported (OracleVectorStore.init false false) "chunk-7"

end OracleVS
